import Mathlib

/-!
Verification of the fiso temporal-worker execution core
(`configs/examples/temporal-worker-python/worker.py`).

The worker's own code (the activity `call_external_service` and the
workflow `ProcessEvent.run`) is embedded directly.  The payload codec
(Python's `json` module) and the retry/timeout engine (the Temporal
runtime configured by `ProcessEvent.run`) are external collaborators not
present in the repository source; they are modelled from the spec, as
marked in their doc comments.
-/

namespace Fiso

/-! ## Structured values (JSON model)

Modelled from the spec: the payload is "JSON or equivalent structured
encoding" handled by Python's `json` module, which is not repository
source.  Values are null, booleans, integers, strings, arrays and
objects; strings are lists of characters. -/

mutual

inductive Json where
  | null : Json
  | bool (b : Bool) : Json
  | num (n : Int) : Json
  | str (s : List Char) : Json
  | arr (xs : JsonList) : Json
  | obj (fs : JsonObj) : Json

inductive JsonList where
  | nil : JsonList
  | cons (hd : Json) (tl : JsonList) : JsonList

inductive JsonObj where
  | nil : JsonObj
  | cons (key : List Char) (val : Json) (tl : JsonObj) : JsonObj

end

/-- One decimal digit character. -/
def digitChar : Nat → Char
  | 0 => '0'
  | 1 => '1'
  | 2 => '2'
  | 3 => '3'
  | 4 => '4'
  | 5 => '5'
  | 6 => '6'
  | 7 => '7'
  | 8 => '8'
  | 9 => '9'
  | _ => '0'

/-- Decimal digits of a natural number, most significant first. -/
def natToChars (n : Nat) : List Char :=
  if _h : n < 10 then [digitChar n]
  else natToChars (n / 10) ++ [digitChar (n % 10)]
termination_by n
decreasing_by exact Nat.div_lt_self (by omega) (by omega)

/-- Decimal rendering of an integer. -/
def intToChars (n : Int) : List Char :=
  if n < 0 then '-' :: natToChars n.natAbs else natToChars n.toNat

/-- Serialization of one string character: quote and backslash are
backslash-escaped, every other character stands for itself. -/
def escChar (c : Char) : List Char :=
  if c = '"' ∨ c = '\\' then ['\\', c] else [c]

/-- Serialization of the characters of a string (without the
surrounding quotes). -/
def escString : List Char → List Char
  | [] => []
  | c :: s => escChar c ++ escString s

mutual

/-- Modelled from the spec: canonical serialization of a structured
value (`json.dumps`, compact form). -/
def dumpsV : Json → List Char
  | .null => 'n' :: 'u' :: 'l' :: ['l']
  | .bool true => 't' :: 'r' :: 'u' :: ['e']
  | .bool false => 'f' :: 'a' :: 'l' :: 's' :: ['e']
  | .num n => intToChars n
  | .str s => '"' :: escString s ++ ['"']
  | .arr xs => '[' :: dumpsItems xs ++ [']']
  | .obj fs => '\x7b' :: dumpsFields fs ++ ['\x7d']

/-- Comma-separated serialization of array items. -/
def dumpsItems : JsonList → List Char
  | .nil => []
  | .cons x .nil => dumpsV x
  | .cons x (.cons y tl) => dumpsV x ++ ',' :: dumpsItems (.cons y tl)

/-- Comma-separated serialization of object fields. -/
def dumpsFields : JsonObj → List Char
  | .nil => []
  | .cons k v .nil => '"' :: escString k ++ '"' :: ':' :: dumpsV v
  | .cons k v (.cons k2 v2 tl) =>
      '"' :: escString k ++ '"' :: ':' :: dumpsV v
        ++ ',' :: dumpsFields (.cons k2 v2 tl)

end

/-- Numeric value of one digit character. -/
def digitVal (c : Char) : Nat := c.toNat - 48

/-- Numeric value of a digit string, most significant first. -/
def digitsVal (ds : List Char) : Nat :=
  ds.foldl (fun a c => a * 10 + digitVal c) 0

/-- True when the input does not begin with a decimal digit. -/
def headNotDigit : List Char → Bool
  | [] => true
  | c :: _ => !c.isDigit

/-- Parse a maximal run of digits into a natural number. -/
def parseNatNum (cs : List Char) : Option (Nat × List Char) :=
  let ds := cs.takeWhile Char.isDigit
  if ds.isEmpty then none
  else some (digitsVal ds, cs.dropWhile Char.isDigit)

/-- Parse an optionally signed decimal integer. -/
def parseNum (cs : List Char) : Option (Json × List Char) :=
  match cs with
  | [] => none
  | c :: rest =>
    if c = '-' then
      match parseNatNum rest with
      | some (m, r) => some (.num (-(m : Int)), r)
      | none => none
    else
      match parseNatNum (c :: rest) with
      | some (m, r) => some (.num ((m : Int)), r)
      | none => none

/-- Parse the characters of a string after the opening quote, up to and
including the closing quote. -/
def parseStringRest : Nat → List Char → Option (List Char × List Char)
  | 0, _ => none
  | _ + 1, [] => none
  | f + 1, c :: rest =>
    if c = '"' then some ([], rest)
    else if c = '\\' then
      match rest with
      | [] => none
      | e :: rest2 =>
        if e = '"' ∨ e = '\\' then
          match parseStringRest f rest2 with
          | some (s, r) => some (e :: s, r)
          | none => none
        else none
    else
      match parseStringRest f rest with
      | some (s, r) => some (c :: s, r)
      | none => none

mutual

/-- Modelled from the spec: recursive-descent parser for structured
values (`json.loads`), fuel-indexed. -/
def parseValue : Nat → List Char → Option (Json × List Char)
  | 0, _ => none
  | _ + 1, [] => none
  | f + 1, c :: rest =>
    if c = 'n' then
      match rest with
      | u :: l1 :: l2 :: r =>
        if u = 'u' ∧ l1 = 'l' ∧ l2 = 'l' then some (.null, r) else none
      | _ => none
    else if c = 't' then
      match rest with
      | r1 :: u :: e1 :: r =>
        if r1 = 'r' ∧ u = 'u' ∧ e1 = 'e' then some (.bool true, r) else none
      | _ => none
    else if c = 'f' then
      match rest with
      | a1 :: l1 :: s1 :: e1 :: r =>
        if a1 = 'a' ∧ l1 = 'l' ∧ s1 = 's' ∧ e1 = 'e' then
          some (.bool false, r)
        else none
      | _ => none
    else if c = '"' then
      match parseStringRest f rest with
      | some (s, r) => some (.str s, r)
      | none => none
    else if c = '[' then
      match rest with
      | [] => none
      | d :: rest2 =>
        if d = ']' then some (.arr .nil, rest2)
        else
          match parseItems f (d :: rest2) with
          | some (xs, r) => some (.arr xs, r)
          | none => none
    else if c = '\x7b' then
      match rest with
      | [] => none
      | d :: rest2 =>
        if d = '\x7d' then some (.obj .nil, rest2)
        else
          match parseFields f (d :: rest2) with
          | some (fs, r) => some (.obj fs, r)
          | none => none
    else if c = '-' ∨ c.isDigit then parseNum (c :: rest)
    else none

/-- Parse one or more comma-separated array items up to the closing
bracket. -/
def parseItems : Nat → List Char → Option (JsonList × List Char)
  | 0, _ => none
  | f + 1, cs =>
    match parseValue f cs with
    | none => none
    | some (v, r) =>
      match r with
      | [] => none
      | d :: r2 =>
        if d = ',' then
          match parseItems f r2 with
          | some (vs, r3) => some (.cons v vs, r3)
          | none => none
        else if d = ']' then some (.cons v .nil, r2)
        else none

/-- Parse one or more comma-separated object fields up to the closing
brace. -/
def parseFields : Nat → List Char → Option (JsonObj × List Char)
  | 0, _ => none
  | f + 1, cs =>
    match cs with
    | [] => none
    | q :: rest =>
      if q = '"' then
        match parseStringRest f rest with
        | none => none
        | some (k, r) =>
          match r with
          | [] => none
          | col :: r2 =>
            if col = ':' then
              match parseValue f r2 with
              | none => none
              | some (v, r3) =>
                match r3 with
                | [] => none
                | d :: r4 =>
                  if d = ',' then
                    match parseFields f r4 with
                    | some (fs, r5) => some (.cons k v fs, r5)
                    | none => none
                  else if d = '\x7d' then some (.cons k v .nil, r4)
                  else none
            else none
      else none

end

/-- Modelled from the spec: `json.loads` — decode a raw payload into a
structured value, `none` when the payload is not well-formed. -/
def loads (cs : List Char) : Option Json :=
  match parseValue (cs.length + 1) cs with
  | some (v, []) => some v
  | _ => none

/-- Every serialized value begins with one of the value-start
characters. -/
def goodHead (c : Char) : Prop :=
  c = 'n' ∨ c = 't' ∨ c = 'f' ∨ c = '"' ∨ c = '[' ∨ c = '\x7b' ∨
    c = '-' ∨ c.isDigit = true

/-! ## Envelope data extraction (worker.py lines 28-29) -/

/-- The characters of the key `"data"`. -/
def dataKey : List Char := ['d', 'a', 't', 'a']

/-- Key lookup in a decoded object (`dict` access; first match). -/
def objGet : JsonObj → List Char → Option Json
  | .nil, _ => none
  | .cons k v tl, key => if k = key then some v else objGet tl key

/-- The `data` field of a decoded envelope, defaulting to an empty
mapping: `cloud_event.get("data", {})` (worker.py line 29). -/
def getData (fs : JsonObj) : Json :=
  (objGet fs dataKey).getD (Json.obj .nil)

/-- Canonical bytes forwarded downstream:
`json.dumps(cloud_event.get("data", {}))` (worker.py line 29). -/
def extractData (fs : JsonObj) : List Char :=
  dumpsV (getData fs)

/-! ## The activity `call_external_service` (worker.py lines 21-45) -/

/-- What the downstream proxy does on one call: either an HTTP response
with a status code and a body, or a transport-level error. -/
inductive DownstreamResponse where
  | reply (status : Nat) (body : List Char)
  | transportError (cause : List Char)

/-- Outcome of one downstream invocation (the spec's tagged re-encoding
of the activity's return/raise behaviour). -/
inductive InvocationOutcome where
  | success (body : List Char)
  | httpFailure (status : Nat) (body : List Char)
  | transportFailure (cause : List Char)

/-- One outbound request, as built by the activity. -/
structure InvocationRequest where
  url : List Char
  method : List Char
  headers : List (List Char × List Char)
  body : List Char

/-- Result of one attempt of the activity: a downstream outcome, or a
failure raised before the downstream call. `malformedPayload` is
`json.loads` raising on line 28; `internalError` is any other
pre-call error, e.g. `AttributeError` from `.get` on a non-mapping
(line 29). -/
inductive AttemptResult where
  | outcome (o : InvocationOutcome)
  | malformedPayload
  | internalError (msg : List Char)

/-- The fixed sub-path of the downstream target (worker.py line 34). -/
def linkEcho : List Char :=
  ['/', 'l', 'i', 'n', 'k', '/', 'e', 'c', 'h', 'o']

/-- The request method `POST` (worker.py line 33). -/
def postMethod : List Char := ['P', 'O', 'S', 'T']

/-- The header name `Content-Type` (worker.py line 36). -/
def contentTypeKey : List Char :=
  ['C', 'o', 'n', 't', 'e', 'n', 't', '-', 'T', 'y', 'p', 'e']

/-- The header value `application/json` (worker.py line 36). -/
def applicationJson : List Char :=
  ['a', 'p', 'p', 'l', 'i', 'c', 'a', 't', 'i', 'o', 'n',
   '/', 'j', 's', 'o', 'n']

/-- The one outbound request of an attempt (worker.py lines 33-37):
POST to the configured base address joined with `/link/echo`, JSON
content type, body the serialized `data` field. -/
def buildRequest (linkAddr : List Char) (d : List Char) :
    InvocationRequest :=
  ⟨linkAddr ++ linkEcho, postMethod, [(contentTypeKey, applicationJson)], d⟩

/-- Detail string of a failed outcome; for an HTTP failure it is the
`RuntimeError` message `"fiso-link returned {status}: {body}"`
(worker.py line 43). -/
def outcomeDetail : InvocationOutcome → List Char
  | .success body => body
  | .httpFailure status body =>
      ['f', 'i', 's', 'o', '-', 'l', 'i', 'n', 'k', ' ',
       'r', 'e', 't', 'u', 'r', 'n', 'e', 'd', ' ']
        ++ natToChars status ++ ':' :: ' ' :: body
  | .transportFailure cause => cause

/-- The `AttributeError` message raised by `.get` on a non-mapping
decoded value (worker.py line 29). -/
def attrErrorMsg : List Char :=
  ['A', 't', 't', 'r', 'i', 'b', 'u', 't', 'e', 'E', 'r', 'r',
   'o', 'r', ':', ' ', 'g', 'e', 't']

/-- Whether an invocation outcome is retryable: HTTP failures and
transport failures are, success is not (spec section 4.3). -/
def retryableOutcome : InvocationOutcome → Bool
  | .success _ => false
  | .httpFailure _ _ => true
  | .transportFailure _ => true

/-- The body of `call_external_service` after `json.loads` succeeded,
on the decoded value `v` (worker.py lines 29-45): `.get` on a
non-mapping raises `AttributeError` (no request made); otherwise one
request is POSTed and the response is classified — status ≥ 400 raises
(HTTP failure), status < 400 returns the body, a transport error from
the client propagates.  Returns the requests issued and the attempt
result. -/
def processEvent (linkAddr : List Char) (v : Json)
    (resp : DownstreamResponse) :
    List InvocationRequest × AttemptResult :=
  match v with
  | .obj fs =>
    let req := buildRequest linkAddr (extractData fs)
    match resp with
    | .transportError cause =>
        ([req], .outcome (.transportFailure cause))
    | .reply status body =>
        if 400 ≤ status then ([req], .outcome (.httpFailure status body))
        else ([req], .outcome (.success body))
  | _ => ([], .internalError attrErrorMsg)

/-- One attempt of the activity `call_external_service` (worker.py
lines 21-45) on the raw payload, given the downstream behaviour of
this attempt. -/
def callExternalService (linkAddr raw : List Char)
    (resp : DownstreamResponse) :
    List InvocationRequest × AttemptResult :=
  match loads raw with
  | none => ([], .malformedPayload)
  | some v => processEvent linkAddr v resp

/-! ## Workflow executor

Modelled from the spec: the retry/timeout engine is the Temporal
runtime, configured but not implemented in `ProcessEvent.run`
(worker.py lines 52-59: `start_to_close_timeout=30s`,
`maximum_attempts=3`).  The state machine follows spec section 4.5:
deadline check before each attempt, success returns immediately,
retryable failures retry while attempts remain, a backoff wait that
would run past the deadline transitions directly to timeout, and
non-classifiable errors are fatal immediately. -/

/-- Terminal error kinds of a run. -/
inductive ErrorKind where
  | timeout
  | retriesExhausted
  | fatal

/-- Terminal result of a run. -/
inductive RunResult where
  | completed (value : List Char)
  | failed (kind : ErrorKind) (detail : List Char)

/-- Retry-policy configuration: maximum attempts and backoff schedule
(durations as whole time units). -/
structure RetryPolicyCfg where
  maxAttempts : Nat
  backoff : Nat → Nat

/-- Behaviour of one attempt: its wall-clock cost, the requests it
issued, and its result. -/
structure Attempt where
  cost : Nat
  requests : List InvocationRequest
  result : AttemptResult

/-- Observable trace of a run: the terminal result, how many attempts
were performed, the backoff waits slept, and all requests issued. -/
structure RunTrace where
  result : RunResult
  attemptsMade : Nat
  waits : List Nat
  requests : List InvocationRequest

/-- Detail string reported for a timeout. -/
def timeoutMsg : List Char :=
  ['d', 'e', 'a', 'd', 'l', 'i', 'n', 'e', ' ',
   'e', 'x', 'c', 'e', 'e', 'd', 'e', 'd']

/-- Detail string reported for an unparseable payload. -/
def malformedMsg : List Char :=
  ['m', 'a', 'l', 'f', 'o', 'r', 'm', 'e', 'd', ' ',
   'p', 'a', 'y', 'l', 'o', 'a', 'd']

/-- Modelled from the spec (section 4.5): the executor loop at attempt
number `a` with elapsed time `e` against deadline `D`.  Checks the
deadline before any call or wait; invokes the attempt; returns on
success; on a retryable failure either stops with retries exhausted
(`maxAttempts ≤ a`), times out rather than sleeping past the deadline,
or waits the backoff and continues; fails fatally on any
non-classifiable error. -/
def runLoop (D : Nat) (pol : RetryPolicyCfg) (attempts : Nat → Attempt)
    (a e : Nat) : RunTrace :=
  if D ≤ e then ⟨.failed .timeout timeoutMsg, 0, [], []⟩
  else
    match (attempts a).result with
    | .outcome (.success body) =>
        ⟨.completed body, 1, [], (attempts a).requests⟩
    | .malformedPayload =>
        ⟨.failed .fatal malformedMsg, 1, [], (attempts a).requests⟩
    | .internalError msg =>
        ⟨.failed .fatal msg, 1, [], (attempts a).requests⟩
    | .outcome (.httpFailure status body) =>
        if _h : pol.maxAttempts ≤ a then
          ⟨.failed .retriesExhausted (outcomeDetail (.httpFailure status body)),
            1, [], (attempts a).requests⟩
        else if D ≤ e + (attempts a).cost + pol.backoff a then
          ⟨.failed .timeout timeoutMsg, 1, [], (attempts a).requests⟩
        else
          let tr := runLoop D pol attempts (a + 1)
            (e + (attempts a).cost + pol.backoff a)
          ⟨tr.result, tr.attemptsMade + 1, pol.backoff a :: tr.waits,
            (attempts a).requests ++ tr.requests⟩
    | .outcome (.transportFailure cause) =>
        if _h : pol.maxAttempts ≤ a then
          ⟨.failed .retriesExhausted (outcomeDetail (.transportFailure cause)),
            1, [], (attempts a).requests⟩
        else if D ≤ e + (attempts a).cost + pol.backoff a then
          ⟨.failed .timeout timeoutMsg, 1, [], (attempts a).requests⟩
        else
          let tr := runLoop D pol attempts (a + 1)
            (e + (attempts a).cost + pol.backoff a)
          ⟨tr.result, tr.attemptsMade + 1, pol.backoff a :: tr.waits,
            (attempts a).requests ++ tr.requests⟩
termination_by pol.maxAttempts - a
decreasing_by all_goals omega

/-- A whole run: the loop entered at attempt number 1 with elapsed
time 0. -/
def runWorkflow (D : Nat) (pol : RetryPolicyCfg)
    (attempts : Nat → Attempt) : RunTrace :=
  runLoop D pol attempts 1 0

/-- The attempt behaviour induced by the activity on raw payload `raw`,
with per-attempt wall-clock cost and downstream behaviour. -/
def activityAttempt (linkAddr raw : List Char) (cost : Nat)
    (resp : DownstreamResponse) : Attempt :=
  ⟨cost, (callExternalService linkAddr raw resp).1,
    (callExternalService linkAddr raw resp).2⟩

/-- The configured start-to-close timeout, in seconds
(worker.py line 57). -/
def startToCloseTimeout : Nat := 30

/-- The configured maximum number of attempts (worker.py line 58). -/
def configuredMaxAttempts : Nat := 3

/-- The whole system on one raw payload: the workflow executor running
the activity, with the downstream behaviour and attempt costs given per
attempt number. -/
def runSystem (linkAddr raw : List Char) (costs : Nat → Nat)
    (resps : Nat → DownstreamResponse) (D : Nat)
    (pol : RetryPolicyCfg) : RunTrace :=
  runWorkflow D pol
    (fun k => activityAttempt linkAddr raw (costs k) (resps k))

/-- Total time budget consumed by `n` retryable attempts starting at
attempt number `a`: per attempt its cost plus its backoff wait. -/
def spend (pol : RetryPolicyCfg) (attempts : Nat → Attempt)
    (a : Nat) : Nat → Nat
  | 0 => 0
  | n + 1 => (attempts a).cost + pol.backoff a + spend pol attempts (a + 1) n

/-! ## Round-trip lemmas for the codec -/

theorem digitChar_isDigit (d : Nat) : (digitChar d).isDigit = true := by
  unfold digitChar
  split <;> decide

theorem digitVal_digitChar (d : Nat) (h : d < 10) :
    digitVal (digitChar d) = d := by
  interval_cases d <;> decide

theorem natToChars_ne_nil (n : Nat) : natToChars n ≠ [] := by
  unfold natToChars
  split
  · simp
  · simp

theorem natToChars_all_digit (n : Nat) :
    ∀ c ∈ natToChars n, c.isDigit = true := by
  induction n using Nat.strong_induction_on with
  | _ n ih =>
    unfold natToChars
    split
    · intro c hc
      simp at hc
      simp [hc, digitChar_isDigit]
    · intro c hc
      rw [List.mem_append] at hc
      rcases hc with hc | hc
      · exact ih (n / 10) (Nat.div_lt_self (by omega) (by omega)) c hc
      · simp at hc
        simp [hc, digitChar_isDigit]

theorem digitsVal_append_one (l : List Char) (c : Char) :
    digitsVal (l ++ [c]) = digitsVal l * 10 + digitVal c := by
  simp [digitsVal, List.foldl_append]

theorem digitsVal_natToChars (n : Nat) : digitsVal (natToChars n) = n := by
  induction n using Nat.strong_induction_on with
  | _ n ih =>
    unfold natToChars
    split
    next h =>
      simp [digitsVal, digitVal_digitChar n h]
    next h =>
      rw [digitsVal_append_one,
        ih (n / 10) (Nat.div_lt_self (by omega) (by omega)),
        digitVal_digitChar (n % 10) (by omega)]
      omega

theorem isDigit_ne (c d : Char) (h : c.isDigit = true)
    (hd : d.isDigit = false) : c ≠ d := by
  intro e
  rw [e, hd] at h
  cases h

theorem takeWhile_digit_append : ∀ (l r : List Char),
    (∀ c ∈ l, Char.isDigit c = true) → headNotDigit r = true →
    (l ++ r).takeWhile Char.isDigit = l ∧
      (l ++ r).dropWhile Char.isDigit = r
  | [], r, _, hr => by
    simp only [List.nil_append]
    cases r with
    | nil => simp
    | cons c r' =>
      simp only [headNotDigit, Bool.not_eq_true'] at hr
      simp [List.takeWhile, List.dropWhile, hr]
  | c :: l', r, h, hr => by
    have hc : Char.isDigit c = true := h c (by simp)
    have ih' := takeWhile_digit_append l' r
      (fun d hd => h d (List.mem_cons_of_mem c hd)) hr
    simp [List.takeWhile, List.dropWhile, hc, ih'.1, ih'.2]

theorem parseNatNum_rt (n : Nat) (rest : List Char)
    (hr : headNotDigit rest = true) :
    parseNatNum (natToChars n ++ rest) = some (n, rest) := by
  have h := takeWhile_digit_append (natToChars n) rest
    (natToChars_all_digit n) hr
  have hne : (natToChars n).isEmpty = false := by
    cases hn : natToChars n with
    | nil => exact absurd hn (natToChars_ne_nil n)
    | cons c l => simp
  simp [parseNatNum, h.1, h.2, hne, digitsVal_natToChars]

theorem parseNum_rt (n : Int) (rest : List Char)
    (hr : headNotDigit rest = true) :
    parseNum (intToChars n ++ rest) = some (.num n, rest) := by
  unfold intToChars
  split
  next hneg =>
    have he : (-(n.natAbs : Int)) = n := by omega
    simp only [List.cons_append]
    rw [parseNum]
    simp only [if_pos rfl]
    rw [parseNatNum_rt n.natAbs rest hr]
    show some (Json.num (-(n.natAbs : Int)), rest) = some (Json.num n, rest)
    rw [he]
  next hpos =>
    cases hn : natToChars n.toNat with
    | nil => exact absurd hn (natToChars_ne_nil n.toNat)
    | cons c l =>
      have hc : c.isDigit = true := by
        apply natToChars_all_digit n.toNat
        rw [hn]; simp
      have hcm : ¬(c = '-') := isDigit_ne c '-' hc (by decide)
      rw [List.cons_append, parseNum]
      simp only [if_neg hcm]
      rw [← List.cons_append, ← hn, parseNatNum_rt n.toNat rest hr]
      have he : ((n.toNat : Int)) = n := by omega
      show some (Json.num ((n.toNat : Int)), rest) = some (Json.num n, rest)
      rw [he]

theorem parseStringRest_rt : ∀ (s : List Char) (f : Nat) (rest : List Char),
    s.length < f →
    parseStringRest f (escString s ++ '"' :: rest) = some (s, rest)
  | [], f, rest, hf => by
    match f, hf with
    | f' + 1, _ =>
      simp [escString, parseStringRest]
  | c :: s', f, rest, hf => by
    match f, hf with
    | f' + 1, hf =>
      have ih := parseStringRest_rt s' f' rest (by
        simp at hf
        omega)
      by_cases hc : c = '"' ∨ c = '\\'
      · simp only [escString, escChar, if_pos hc, List.cons_append,
          List.append_assoc]
        rw [parseStringRest]
        simp [hc, ih]
      · push_neg at hc
        simp only [escString, escChar, if_neg (by tauto), List.cons_append]
        rw [parseStringRest.eq_def]
        simp [hc.1, hc.2, ih]

theorem escString_length (s : List Char) :
    s.length ≤ (escString s).length := by
  induction s with
  | nil => simp [escString]
  | cons c s' ih =>
    simp only [escString, escChar, List.length_cons, List.length_append]
    split <;> simp <;> omega

theorem dumpsV_head (v : Json) :
    ∃ c cs, dumpsV v = c :: cs ∧ goodHead c := by
  cases v with
  | null => exact ⟨'n', _, rfl, Or.inl rfl⟩
  | bool b =>
    cases b with
    | true => exact ⟨'t', _, rfl, Or.inr (Or.inl rfl)⟩
    | false => exact ⟨'f', _, rfl, Or.inr (Or.inr (Or.inl rfl))⟩
  | num n =>
    unfold dumpsV intToChars
    split
    · exact ⟨'-', _, rfl, by simp [goodHead]⟩
    · cases hn : natToChars n.toNat with
      | nil => exact absurd hn (natToChars_ne_nil n.toNat)
      | cons c l =>
        refine ⟨c, l, rfl, ?_⟩
        have hc : c.isDigit = true := by
          apply natToChars_all_digit n.toNat
          rw [hn]; simp
        simp [goodHead, hc]
  | str s => exact ⟨'"', _, rfl, by simp [goodHead]⟩
  | arr xs => exact ⟨'[', _, rfl, by simp [goodHead]⟩
  | obj fs => exact ⟨'\x7b', _, rfl, by simp [goodHead]⟩

theorem goodHead_ne_close (c : Char) (h : goodHead c) :
    c ≠ ']' ∧ c ≠ '\x7d' ∧ c ≠ ',' := by
  rcases h with h | h | h | h | h | h | h | h
  all_goals first
    | (subst h; exact ⟨by decide, by decide, by decide⟩)
    | exact ⟨isDigit_ne c ']' h (by decide),
        isDigit_ne c '\x7d' h (by decide),
        isDigit_ne c ',' h (by decide)⟩

theorem numHead_branch (c : Char) (h : c = '-' ∨ c.isDigit = true) :
    c ≠ 'n' ∧ c ≠ 't' ∧ c ≠ 'f' ∧ c ≠ '"' ∧ c ≠ '[' ∧ c ≠ '\x7b' := by
  rcases h with h | h
  · subst h
    exact ⟨by decide, by decide, by decide, by decide, by decide, by decide⟩
  · exact ⟨isDigit_ne c 'n' h (by decide), isDigit_ne c 't' h (by decide),
      isDigit_ne c 'f' h (by decide), isDigit_ne c '"' h (by decide),
      isDigit_ne c '[' h (by decide), isDigit_ne c '\x7b' h (by decide)⟩

theorem intToChars_head (n : Int) :
    ∃ c cs, intToChars n = c :: cs ∧ (c = '-' ∨ c.isDigit = true) := by
  unfold intToChars
  split
  · exact ⟨'-', _, rfl, Or.inl rfl⟩
  · cases hn : natToChars n.toNat with
    | nil => exact absurd hn (natToChars_ne_nil n.toNat)
    | cons c l =>
      refine ⟨c, l, rfl, Or.inr ?_⟩
      apply natToChars_all_digit n.toNat
      rw [hn]; simp

theorem dumpsItems_cons_head (x : Json) (tl : JsonList) :
    ∃ c cs, dumpsItems (.cons x tl) = c :: cs ∧ goodHead c := by
  obtain ⟨c, cs, hd, hg⟩ := dumpsV_head x
  cases tl with
  | nil => exact ⟨c, cs, by simp [dumpsItems, hd], hg⟩
  | cons y tl' =>
    exact ⟨c, cs ++ ',' :: dumpsItems (.cons y tl'),
      by simp [dumpsItems, hd], hg⟩

set_option maxHeartbeats 1000000 in
theorem parse_rt : ∀ f : Nat,
    (∀ v rest, (dumpsV v).length < f → headNotDigit rest = true →
      parseValue f (dumpsV v ++ rest) = some (v, rest)) ∧
    (∀ xs rest, xs ≠ JsonList.nil → (dumpsItems xs).length + 1 < f →
      parseItems f (dumpsItems xs ++ ']' :: rest) = some (xs, rest)) ∧
    (∀ fs rest, fs ≠ JsonObj.nil → (dumpsFields fs).length + 1 < f →
      parseFields f (dumpsFields fs ++ '\x7d' :: rest) = some (fs, rest)) := by
  intro f
  induction f with
  | zero =>
    refine ⟨?_, ?_, ?_⟩ <;> intro _ _ <;> omega
  | succ f ih =>
    obtain ⟨ihV, ihI, ihF⟩ := ih
    refine ⟨?_, ?_, ?_⟩
    · intro v rest hlen hrest
      cases v with
      | null => simp [dumpsV, parseValue]
      | bool b => cases b <;> simp [dumpsV, parseValue]
      | num n =>
        obtain ⟨c, cs, hd, hg⟩ := intToChars_head n
        have hne := numHead_branch c hg
        have hpn := parseNum_rt n rest hrest
        rw [dumpsV] at hlen ⊢
        rw [hd] at hpn ⊢
        simp only [List.cons_append] at hpn ⊢
        simp only [parseValue]
        simp [hne.1, hne.2.1, hne.2.2.1, hne.2.2.2.1, hne.2.2.2.2.1,
          hne.2.2.2.2.2, hg, hpn]
      | str s =>
        have hlen' : s.length < f := by
          have h1 := escString_length s
          simp [dumpsV] at hlen
          omega
        have hps := parseStringRest_rt s f rest hlen'
        rw [dumpsV]
        simp only [List.cons_append, List.append_assoc, List.singleton_append]
        simp only [parseValue]
        simp [hps]
      | arr xs =>
        cases xs with
        | nil => simp [dumpsV, dumpsItems, parseValue]
        | cons x tl =>
          obtain ⟨c, cs, hdi, hg⟩ := dumpsItems_cons_head x tl
          have hne := goodHead_ne_close c hg
          have hitems := ihI (.cons x tl) rest (by simp) (by
            simp [dumpsV] at hlen
            omega)
          rw [dumpsV]
          rw [hdi] at hitems ⊢
          simp only [List.cons_append, List.append_assoc,
            List.singleton_append] at hitems ⊢
          simp only [parseValue]
          simp [hne.1, hitems]
      | obj fs =>
        cases fs with
        | nil => simp [dumpsV, dumpsFields, parseValue]
        | cons k v tl =>
          have hfields := ihF (.cons k v tl) rest (by simp) (by
            simp [dumpsV] at hlen
            omega)
          have hq : dumpsFields (.cons k v tl) =
              '"' :: (dumpsFields (.cons k v tl)).tail := by
            cases tl <;> simp [dumpsFields]
          rw [dumpsV]
          rw [hq] at hfields ⊢
          simp only [List.cons_append, List.append_assoc,
            List.singleton_append] at hfields ⊢
          simp only [parseValue]
          simp [hfields]
    · intro xs rest hne hlen
      cases xs with
      | nil => exact absurd rfl hne
      | cons x tl =>
        cases tl with
        | nil =>
          have hv := ihV x (']' :: rest) (by
            simp [dumpsItems] at hlen
            omega) (by simp [headNotDigit])
          rw [dumpsItems] at hlen ⊢
          simp only [parseItems]
          simp [hv]
        | cons y tl' =>
          have hlen' : (dumpsV x).length + 1 +
              (dumpsItems (.cons y tl')).length + 1 < f + 1 := by
            simp [dumpsItems] at hlen
            omega
          have hv := ihV x (',' :: (dumpsItems (.cons y tl') ++ ']' :: rest))
            (by omega) (by simp [headNotDigit])
          have hrec := ihI (.cons y tl') rest (by simp) (by omega)
          rw [dumpsItems]
          simp only [List.cons_append, List.append_assoc]
          simp only [parseItems]
          simp [hv, hrec]
    · intro fs rest hne hlen
      cases fs with
      | nil => exact absurd rfl hne
      | cons k v tl =>
        cases tl with
        | nil =>
          have hlen' : k.length < f ∧ (dumpsV v).length < f := by
            have h1 := escString_length k
            simp [dumpsFields] at hlen
            omega
          have hk := parseStringRest_rt k f
            (':' :: (dumpsV v ++ '\x7d' :: rest)) hlen'.1
          have hv := ihV v ('\x7d' :: rest) hlen'.2 (by simp [headNotDigit])
          rw [dumpsFields]
          simp only [List.cons_append, List.append_assoc]
          simp only [parseFields]
          simp [hk, hv]
        | cons k2 v2 tl' =>
          have hlen' : k.length < f ∧ (dumpsV v).length < f ∧
              (dumpsFields (.cons k2 v2 tl')).length + 1 < f := by
            have h1 := escString_length k
            simp [dumpsFields] at hlen
            omega
          have hk := parseStringRest_rt k f
            (':' :: (dumpsV v ++ ',' ::
              (dumpsFields (.cons k2 v2 tl') ++ '\x7d' :: rest))) hlen'.1
          have hv := ihV v (',' ::
            (dumpsFields (.cons k2 v2 tl') ++ '\x7d' :: rest))
            hlen'.2.1 (by simp [headNotDigit])
          have hrec := ihF (.cons k2 v2 tl') rest (by simp) hlen'.2.2
          rw [dumpsFields]
          simp only [List.cons_append, List.append_assoc]
          simp only [parseFields]
          simp [hk, hv, hrec]

/-- Serialize-then-decode is the identity on structured values. -/
theorem loads_dumps (v : Json) : loads (dumpsV v) = some v := by
  have h := (parse_rt ((dumpsV v).length + 1)).1 v [] (by omega) rfl
  rw [List.append_nil] at h
  unfold loads
  rw [h]

/-- C5: for every successfully decoded envelope, `extractData` never
fails (it is a total function on decoded mappings): it re-serializes
the envelope's `data` field to canonical bytes, and when the `data`
field is absent it returns the serialization of an empty mapping. -/
theorem claim_C5 (fs : JsonObj) :
    (objGet fs dataKey = none → extractData fs = dumpsV (Json.obj .nil)) ∧
    (∀ d, objGet fs dataKey = some d → extractData fs = dumpsV d) := by
  constructor
  · intro h
    simp [extractData, getData, h]
  · intro d h
    simp [extractData, getData, h]

theorem claim_C5_witness :
    extractData JsonObj.nil = dumpsV (Json.obj .nil) ∧
      extractData (JsonObj.cons dataKey Json.null .nil) = dumpsV Json.null :=
  ⟨(claim_C5 .nil).1 rfl,
    (claim_C5 (JsonObj.cons dataKey Json.null .nil)).2 Json.null rfl⟩

/-- C7: for every valid envelope, decode then extractData satisfies the
round-trip law: decoding the extracted bytes yields the same structured
value as the envelope's original `data` field, an absent `data` field
normalizing to an empty mapping. -/
theorem claim_C7 (fs : JsonObj) :
    (∀ d, objGet fs dataKey = some d →
      loads (extractData fs) = some d) ∧
    (objGet fs dataKey = none →
      loads (extractData fs) = some (Json.obj .nil)) := by
  constructor
  · intro d h
    simp [extractData, getData, h, loads_dumps]
  · intro h
    simp [extractData, getData, h, loads_dumps]

theorem claim_C7_witness :
    loads (extractData (JsonObj.cons dataKey (Json.num 42) .nil)) =
        some (Json.num 42) ∧
      loads (extractData JsonObj.nil) = some (Json.obj .nil) :=
  ⟨(claim_C7 (JsonObj.cons dataKey (Json.num 42) .nil)).1 (Json.num 42) rfl,
    (claim_C7 .nil).2 rfl⟩

/-- C3: one downstream invocation is classified exactly by the response
status — status < 400 yields a success carrying the body, status ≥ 400
yields an HTTP failure carrying status and body (the attempt
raises/fails on a response iff status ≥ 400), and a transport-level
error yields a transport failure carrying the cause. -/
theorem claim_C3 (linkAddr : List Char) (fs : JsonObj) (status : Nat)
    (body cause : List Char) :
    (status < 400 →
      (processEvent linkAddr (.obj fs) (.reply status body)).2 =
        .outcome (.success body)) ∧
    (400 ≤ status →
      (processEvent linkAddr (.obj fs) (.reply status body)).2 =
        .outcome (.httpFailure status body)) ∧
    (processEvent linkAddr (.obj fs) (.transportError cause)).2 =
      .outcome (.transportFailure cause) := by
  refine ⟨?_, ?_, ?_⟩
  · intro h
    simp [processEvent, show ¬(400 ≤ status) by omega]
  · intro h
    simp [processEvent, h]
  · simp [processEvent]

theorem claim_C3_witness :
    (processEvent [] (.obj .nil) (.reply 200 [])).2 =
        .outcome (.success []) ∧
      (processEvent [] (.obj .nil) (.reply 500 [])).2 =
        .outcome (.httpFailure 500 []) ∧
      (processEvent [] (.obj .nil) (.transportError [])).2 =
        .outcome (.transportFailure []) :=
  ⟨(claim_C3 [] .nil 200 [] []).1 (by omega),
    (claim_C3 [] .nil 500 [] []).2.1 (by omega),
    (claim_C3 [] .nil 500 [] []).2.2⟩

/-- C8: every attempt on a decoded envelope issues exactly one outbound
request — a POST to the configurable base address joined with the fixed
sub-path `/link/echo`, with header `Content-Type: application/json` and
body the canonical serialization of the envelope's `data` field —
whatever the downstream then does. -/
theorem claim_C8 (linkAddr : List Char) (fs : JsonObj)
    (resp : DownstreamResponse) :
    (processEvent linkAddr (.obj fs) resp).1 =
      [⟨linkAddr ++ linkEcho, postMethod,
        [(contentTypeKey, applicationJson)], dumpsV (getData fs)⟩] := by
  cases resp with
  | transportError cause =>
    simp [processEvent, buildRequest, extractData]
  | reply status body =>
    rcases le_or_lt 400 status with h | h <;>
      simp [processEvent, buildRequest, extractData, h, Nat.not_le.mpr]

/-- C9: two raw payloads that decode to mappings with equal `data`
fields produce, for one attempt with the same downstream behaviour,
identical requests and identical results: no other envelope field
influences the attempt. -/
theorem claim_C9 (linkAddr raw1 raw2 : List Char) (fs1 fs2 : JsonObj)
    (resp : DownstreamResponse)
    (h1 : loads raw1 = some (.obj fs1)) (h2 : loads raw2 = some (.obj fs2))
    (hdata : getData fs1 = getData fs2) :
    callExternalService linkAddr raw1 resp =
      callExternalService linkAddr raw2 resp := by
  simp only [callExternalService, h1, h2]
  cases resp <;> simp [processEvent, buildRequest, extractData, hdata]

theorem claim_C9_witness :
    callExternalService [] ['\x7b', '\x7d'] (.reply 200 []) =
      callExternalService []
        ['\x7b', '"', 't', 'y', 'p', 'e', '"', ':', '"', 'x', '"', '\x7d']
        (.reply 200 []) :=
  claim_C9 [] _ _ .nil
    (JsonObj.cons ['t', 'y', 'p', 'e'] (Json.str ['x']) .nil)
    (.reply 200 []) rfl rfl rfl

/-- C10: a raw payload that is well-formed structured data whose
top-level value is not a mapping decodes successfully, and the attempt
fails with an unclassified internal error (not a malformed-payload
error) before any downstream call is made. -/
theorem claim_C10 (linkAddr raw : List Char) (v : Json)
    (resp : DownstreamResponse) (h : loads raw = some v)
    (hv : ∀ fs, v ≠ Json.obj fs) :
    callExternalService linkAddr raw resp =
      ([], .internalError attrErrorMsg) := by
  simp only [callExternalService, h]
  cases v with
  | obj fs => exact absurd rfl (hv fs)
  | null => simp [processEvent]
  | bool b => simp [processEvent]
  | num n => simp [processEvent]
  | str s => simp [processEvent]
  | arr xs => simp [processEvent]

theorem claim_C10_witness :
    callExternalService [] ['1'] (.reply 200 []) =
      ([], .internalError attrErrorMsg) :=
  claim_C10 [] ['1'] (Json.num 1) (.reply 200 []) rfl
    (fun _ h => Json.noConfusion h)

/-- C2: the deadline is consulted before any wait or call (a run whose
elapsed time has reached `D` performs no further attempt and times out),
and when the deadline would elapse during the backoff wait after a
retryable failure the run terminates as a timeout — never as retries
exhausted — even though attempts remain. -/
theorem claim_C2 (D : Nat) (pol : RetryPolicyCfg) (A : Nat → Attempt) :
    (∀ a e o, (A a).result = .outcome o → retryableOutcome o = true →
      a < pol.maxAttempts → e < D →
      D ≤ e + (A a).cost + pol.backoff a →
      runLoop D pol A a e =
        ⟨.failed .timeout timeoutMsg, 1, [], (A a).requests⟩) ∧
    (∀ a e, D ≤ e →
      runLoop D pol A a e = ⟨.failed .timeout timeoutMsg, 0, [], []⟩) := by
  constructor
  · intro a e o hres hretry hlt he hw
    cases o with
    | success body => simp [retryableOutcome] at hretry
    | httpFailure status body =>
      unfold runLoop
      simp [Nat.not_le.mpr he, hres, Nat.not_le.mpr hlt, hw]
    | transportFailure cause =>
      unfold runLoop
      simp [Nat.not_le.mpr he, hres, Nat.not_le.mpr hlt, hw]
  · intro a e h
    unfold runLoop
    simp [h]

theorem claim_C2_witness :
    runLoop 30 ⟨3, fun _ => 20⟩
        (fun _ => ⟨20, [], .outcome (.httpFailure 500 [])⟩) 1 0 =
      ⟨.failed .timeout timeoutMsg, 1, [], []⟩ ∧
    runLoop 30 ⟨3, fun _ => 20⟩
        (fun _ => ⟨20, [], .outcome (.httpFailure 500 [])⟩) 1 30 =
      ⟨.failed .timeout timeoutMsg, 0, [], []⟩ :=
  ⟨(claim_C2 30 ⟨3, fun _ => 20⟩
      (fun _ => ⟨20, [], .outcome (.httpFailure 500 [])⟩)).1 1 0
      (.httpFailure 500 []) rfl rfl (by decide) (by decide) (by decide),
    (claim_C2 30 ⟨3, fun _ => 20⟩
      (fun _ => ⟨20, [], .outcome (.httpFailure 500 [])⟩)).2 1 30 (by omega)⟩

/-- C6: a run whose first attempt's downstream call returns a success
(status < 400) performs exactly one attempt, sleeps no backoff, and
completes with the downstream response body as its value. -/
theorem claim_C6 (linkAddr raw : List Char) (fsv : JsonObj)
    (costs : Nat → Nat) (resps : Nat → DownstreamResponse)
    (D : Nat) (pol : RetryPolicyCfg) (status : Nat) (body : List Char)
    (hraw : loads raw = some (.obj fsv)) (hD : 0 < D)
    (hresp : resps 1 = .reply status body) (hstatus : status < 400) :
    runSystem linkAddr raw costs resps D pol =
      ⟨.completed body, 1, [], [buildRequest linkAddr (extractData fsv)]⟩ := by
  have hs : ¬(400 ≤ status) := by omega
  unfold runSystem runWorkflow runLoop
  simp [show ¬(D ≤ 0) by omega, activityAttempt, hresp,
    callExternalService, hraw, processEvent, hs]

theorem claim_C6_witness :
    runSystem [] ['\x7b', '\x7d'] (fun _ => 0)
        (fun _ => .reply 200 ['o', 'k']) 30 ⟨3, fun _ => 0⟩ =
      ⟨.completed ['o', 'k'], 1, [],
        [buildRequest [] (extractData .nil)]⟩ :=
  claim_C6 [] ['\x7b', '\x7d'] .nil (fun _ => 0)
    (fun _ => .reply 200 ['o', 'k']) 30 ⟨3, fun _ => 0⟩ 200 ['o', 'k']
    rfl (by omega) rfl (by omega)

/-- C4: a raw payload that is not well-formed structured data makes the
run terminate as a fatal failure with the malformed-payload detail,
after a single non-retried attempt, with zero downstream calls made. -/
theorem claim_C4 (linkAddr raw : List Char) (costs : Nat → Nat)
    (resps : Nat → DownstreamResponse) (D : Nat) (pol : RetryPolicyCfg)
    (hraw : loads raw = none) (hD : 0 < D) :
    runSystem linkAddr raw costs resps D pol =
      ⟨.failed .fatal malformedMsg, 1, [], []⟩ := by
  unfold runSystem runWorkflow runLoop
  simp [show ¬(D ≤ 0) by omega, activityAttempt, callExternalService, hraw]

theorem claim_C4_witness :
    runSystem [] ['x'] (fun _ => 0) (fun _ => .reply 200 []) 30
        ⟨3, fun _ => 0⟩ =
      ⟨.failed .fatal malformedMsg, 1, [], []⟩ :=
  claim_C4 [] ['x'] (fun _ => 0) (fun _ => .reply 200 []) 30
    ⟨3, fun _ => 0⟩ rfl (by omega)

/-- A run whose every remaining attempt fails with an HTTP failure, and
whose time budget keeps it clear of the deadline, stops with retries
exhausted at the last configured attempt, carrying that attempt's
failure detail, after performing exactly the remaining attempts. -/
theorem runLoop_exhaust (D : Nat) (pol : RetryPolicyCfg)
    (A : Nat → Attempt) (st : Nat → Nat) (bd : Nat → List Char) :
    ∀ n a e, 1 ≤ n → a + n = pol.maxAttempts + 1 →
      (∀ k, a ≤ k → k ≤ pol.maxAttempts →
        (A k).result = .outcome (.httpFailure (st k) (bd k))) →
      e + spend pol A a n < D →
      (runLoop D pol A a e).result =
        .failed .retriesExhausted
          (outcomeDetail
            (.httpFailure (st pol.maxAttempts) (bd pol.maxAttempts))) ∧
      (runLoop D pol A a e).attemptsMade = n := by
  intro n
  induction n with
  | zero => exact fun a e h1 => absurd h1 (by omega)
  | succ n ih =>
    intro a e _ hsum hres hbudget
    have ha : a ≤ pol.maxAttempts := by omega
    simp only [spend] at hbudget
    have hra := hres a (Nat.le_refl a) ha
    cases n with
    | zero =>
      have haeq : a = pol.maxAttempts := by omega
      subst haeq
      unfold runLoop
      simp [show ¬(D ≤ e) by omega, hra]
    | succ m =>
      have hlt : a < pol.maxAttempts := by omega
      have ihh := ih (a + 1) (e + (A a).cost + pol.backoff a)
        (by omega) (by omega)
        (fun k hk1 hk2 => hres k (by omega) hk2)
        (by omega)
      unfold runLoop
      simp only [show (D ≤ e) = False by simp; omega, if_false,
        Bool.false_eq_true, hra]
      simp [Nat.not_le.mpr hlt,
        show ¬(D ≤ e + (A a).cost + pol.backoff a) by omega,
        ihh.1, ihh.2]

/-- C1: with the configured maximum of 3 attempts, a run whose every
downstream call returns an HTTP status ≥ 400, and whose costs and
backoffs stay inside the configured deadline, terminates after exactly
3 attempts with retries exhausted carrying the detail of the last
failure; no retryable failure is surfaced to the caller — the terminal
result is the only outcome reported. -/
theorem claim_C1 (linkAddr raw : List Char) (fsv : JsonObj)
    (backoff costs st : Nat → Nat) (bd : Nat → List Char)
    (hraw : loads raw = some (.obj fsv))
    (hst : ∀ k, 1 ≤ k → k ≤ 3 → 400 ≤ st k)
    (hbudget : costs 1 + backoff 1 + costs 2 + backoff 2 + costs 3 +
      backoff 3 < startToCloseTimeout) :
    (runSystem linkAddr raw costs (fun k => .reply (st k) (bd k))
        startToCloseTimeout ⟨configuredMaxAttempts, backoff⟩).result =
      .failed .retriesExhausted
        (outcomeDetail (.httpFailure (st 3) (bd 3))) ∧
    (runSystem linkAddr raw costs (fun k => .reply (st k) (bd k))
        startToCloseTimeout ⟨configuredMaxAttempts, backoff⟩).attemptsMade
      = 3 := by
  have h := runLoop_exhaust startToCloseTimeout
    ⟨configuredMaxAttempts, backoff⟩
    (fun k => activityAttempt linkAddr raw (costs k) (.reply (st k) (bd k)))
    st bd 3 1 0 (by omega) (by simp [configuredMaxAttempts])
    (fun k hk1 hk3 => by
      have h400 := hst k hk1 (by simpa [configuredMaxAttempts] using hk3)
      simp [activityAttempt, callExternalService, hraw, processEvent, h400])
    (by
      simp [spend, activityAttempt, startToCloseTimeout] at hbudget ⊢
      omega)
  exact h

theorem claim_C1_witness :
    (runSystem [] ['\x7b', '\x7d'] (fun _ => 0)
        (fun _ => .reply 500 []) startToCloseTimeout
        ⟨configuredMaxAttempts, fun _ => 0⟩).result =
      .failed .retriesExhausted (outcomeDetail (.httpFailure 500 [])) ∧
    (runSystem [] ['\x7b', '\x7d'] (fun _ => 0)
        (fun _ => .reply 500 []) startToCloseTimeout
        ⟨configuredMaxAttempts, fun _ => 0⟩).attemptsMade = 3 :=
  claim_C1 [] ['\x7b', '\x7d'] .nil (fun _ => 0) (fun _ => 0)
    (fun _ => 500) (fun _ => []) rfl (fun _ _ _ => by simp) (by decide)

end Fiso
